import Mathlib

/-!
Verification development for the product-composer package-set resolver
(`src/productcomposer/cli.py`).

The definitions below are a shallow embedding of the resolution
orchestrator in `cli.py`.  The external collaborator classes (`PkgSet`,
`Package`, `Pool`) are not part of the sources; where their behaviour is
needed it is modelled from the specification, and the `Pool` lookups are
treated as an abstract interface (arbitrary functions), so every theorem
about the orchestrator holds for any pool implementation.

Python side effects are made explicit: the output filesystem, the
provenance manifest (`tree_report`), the support-status table and the
emitted warnings are carried in a `BuildState` record; `die` (SystemExit)
is modelled with `Except`, and the aggregated missing-package abort at the
end of `link_rpms_to_tree` is returned as an optional fatal message next
to the final state (in the program the warnings have been printed before
that point, so the state must survive the abort decision).
-/

/-- Association-list lookup keyed by strings; mirrors Python `dict`
membership and subscript reads (`k in d`, `d[k]`). -/
def alookup {α : Type} (k : String) : List (String × α) → Option α
  | [] => none
  | (k', v) :: rest => if k' = k then some v else alookup k rest

/-- Association-list update; mirrors Python `d[k] = v` (an existing key
keeps its position, a new key is appended, as in a Python dict). -/
def aset {α : Type} (k : String) (v : α) : List (String × α) → List (String × α)
  | [] => [(k, v)]
  | (k', v') :: rest => if k' = k then (k, v) :: rest else (k', v') :: aset k v rest

/-- Split a character list at every occurrence of the separator; the
result always has at least one (possibly empty) segment, matching
Python's `str.split(sep)`. -/
def splitOnChar (c : Char) : List Char → List (List Char)
  | [] => [[]]
  | x :: rest =>
    let r := splitOnChar c rest
    if x = c then [] :: r
    else
      match r with
      | h :: t => (x :: h) :: t
      | [] => [[x]]

/-- Python `s.split(c)` for a one-character separator. -/
def strSplit (c : Char) (s : String) : List String :=
  (splitOnChar c s.data).map String.mk

/-- Python `s.endswith(t)`. -/
def strEndsWith (s t : String) : Bool :=
  t.data.isSuffixOf s.data

/-- Python `s.startswith(t)`. -/
def strStartsWith (s t : String) : Bool :=
  t.data.isPrefixOf s.data

/-- Python `c in s` for a single character. -/
def strContains (s : String) (c : Char) : Bool :=
  s.data.contains c

/-- Python `int(s)` on a non-negative decimal string, `none` otherwise. -/
def strToNat? (s : String) : Option Nat :=
  if s.data ≠ [] && s.data.all (fun c => c.isDigit) then
    some (s.data.foldl (fun acc c => acc * 10 + (c.toNat - 48)) 0)
  else none

/-- Python `sep.join(parts)`. -/
def joinSep (sep : String) : List String → String
  | [] => ""
  | [x] => x
  | x :: y :: rest => x ++ sep ++ joinSep sep (y :: rest)

/-- Python string comparison: lexicographic on code points. -/
def strLeB : List Char → List Char → Bool
  | [], _ => true
  | _ :: _, [] => false
  | a :: as, b :: bs => if a = b then strLeB as bs else decide (a < b)

/-- Modelled from the spec: a Selector, the atomic element of package-set
algebra (§3).  `op = none` is the "any version" selector; `supportstatus`
is the status stamped by the owning set (`PkgSet` is not in the sources). -/
structure Selector where
  name : String
  op : Option String
  epoch : Option Nat
  version : Option String
  release : Option String
  supportstatus : Option String
deriving DecidableEq, Repr

/-- Modelled from the spec: a named collection of Selectors, unique by
name (§3, §4.2).  `PkgSet.py` is not in the sources; the element list
keeps insertion order like a Python dict. -/
structure PkgSet where
  name : String
  supportstatus : Option String
  elements : List Selector
deriving DecidableEq, Repr

def PkgSet.new (name : String) : PkgSet :=
  { name := name, supportstatus := none, elements := [] }

/-- Modelled from the spec: insert a Selector, overwriting any existing
Selector of the same name in this set (last write wins, §4.2). -/
def insertByName (elements : List Selector) (sel : Selector) : List Selector :=
  match elements with
  | [] => [sel]
  | t :: rest => if t.name = sel.name then sel :: rest else t :: insertByName rest sel

/-- Modelled from the spec: parse one selector-spec string, `name` or
`name op epoch:version-release` (§6), stamping the owning set's
supportstatus on the new Selector. -/
def parseSpec (supportstatus : Option String) (spec : String) : Selector :=
  match (strSplit ' ' spec).filter (fun w => w ≠ "") with
  | [n, o, evr] =>
    let (e, vr) :=
      match strSplit ':' evr with
      | [v] => (none, v)
      | e :: rest => (strToNat? e, joinSep ":" rest)
      | [] => (none, "")
    let parts := strSplit '-' vr
    let (v, r) :=
      if parts.length ≤ 1 then (vr, none)
      else (joinSep "-" parts.dropLast, some (parts.getLastD ""))
    { name := n, op := some o, epoch := e, version := some v, release := r,
      supportstatus := supportstatus }
  | n :: _ =>
    { name := n, op := none, epoch := none, version := none, release := none,
      supportstatus := supportstatus }
  | [] =>
    { name := spec, op := none, epoch := none, version := none, release := none,
      supportstatus := supportstatus }

/-- Modelled from the spec: `add_specs` parses each spec string and
inserts it by name (§4.2). -/
def PkgSet.add_specs (ps : PkgSet) (specs : List String) : PkgSet :=
  specs.foldl (fun ps spec => { ps with elements := insertByName ps.elements (parseSpec ps.supportstatus spec) }) ps

/-- Modelled from the spec: union — Selectors of `other` not already
present by name are appended; `self`'s own definitions win (§4.2). -/
def PkgSet.add (self other : PkgSet) : PkgSet :=
  let es := other.elements.foldl
    (fun es sel => if es.any (fun t => t.name = sel.name) then es else es ++ [sel]) self.elements
  { self with elements := es }

/-- Modelled from the spec: difference by name (§4.2). -/
def PkgSet.sub (self other : PkgSet) : PkgSet :=
  let es := self.elements.filter (fun sel => ¬ other.elements.any (fun t => t.name = sel.name))
  { self with elements := es }

/-- Modelled from the spec: intersection by name, version payload kept
from `self` (§4.2). -/
def PkgSet.intersect (self other : PkgSet) : PkgSet :=
  let es := self.elements.filter (fun sel => other.elements.any (fun t => t.name = sel.name))
  { self with elements := es }

/-- One entry of the `packagesets:` list of the YAML document, as consumed
by `create_package_set`.  A Python dict may carry arbitrary keys; the
set-operation keys (and any unrecognized keys) are kept in `ops`, looked
up by name exactly as the code subscripts the dict. -/
structure PkgSetEntry where
  name : Option String
  flavors : Option (List String)
  architectures : Option (List String)
  supportstatus : Option String
  packages : Option (List String)
  ops : List (String × List String)
deriving DecidableEq, Repr

/-- One entry of the legacy flat `packages:` list: a plain spec string or
a dict with optional flavor/architecture guards. -/
inductive CompatEntry where
  | plain (spec : String)
  | cond (flavors : Option (List String)) (architectures : Option (List String)) (packages : List String)
deriving DecidableEq, Repr

/-- The resolved in-memory configuration consumed by the orchestrator
(the keys of the YAML document that the embedded functions read). -/
structure Yml where
  name : String
  version : String
  product_directory_name : Option String
  build_options : List String
  architectures : List String
  packagesets : Option (List PkgSetEntry)
  packages : Option (List CompatEntry)
  unpack_packages : Option (List CompatEntry)
deriving DecidableEq, Repr

/-- `entry['name'] if 'name' in entry else 'main'` (cli.py line 815). -/
def entryName (entry : PkgSetEntry) : String :=
  entry.name.getD "main"

/-- The operation dispatch of `create_package_set` (cli.py lines 839-846):
the three known operations map to one `PkgSet` method each; the trailing
branch mirrors the (unreachable for these three names) `die`. -/
def applyOpStep (setop : String) (ps operand : PkgSet) : Except String PkgSet :=
  if setop = "add" then .ok (ps.add operand)
  else if setop = "sub" then .ok (ps.sub operand)
  else if setop = "intersect" then .ok (ps.intersect operand)
  else .error s!"unsupported package set operation {setop}"

/-- One operand of one set operation (cli.py lines 834-844): a reference
to the set itself or to an unseen name dies; a seen-but-uninstantiated
name is instantiated as an empty placeholder set. -/
def processOperand (name setop : String) (acc : List (String × Option PkgSet) × PkgSet)
    (oname : String) : Except String (List (String × Option PkgSet) × PkgSet) :=
  if oname = name then .error s!"package set {oname} does not exist"
  else
    match alookup oname acc.1 with
    | none => .error s!"package set {oname} does not exist"
    | some none =>
      let pk := aset oname (some (PkgSet.new oname)) acc.1
      match applyOpStep setop acc.2 (PkgSet.new oname) with
      | .ok ps => .ok (pk, ps)
      | .error e => .error e
    | some (some q) =>
      match applyOpStep setop acc.2 q with
      | .ok ps => .ok (acc.1, ps)
      | .error e => .error e

/-- `if setop not in entry: continue` and the operand loop
(cli.py lines 831-844). -/
def processSetop (name : String) (ops : List (String × List String)) (setop : String)
    (acc : List (String × Option PkgSet) × PkgSet) :
    Except String (List (String × Option PkgSet) × PkgSet) :=
  match alookup setop ops with
  | none => .ok acc
  | some onames => onames.foldlM (processOperand name setop) acc

/-- `for setop in 'add', 'sub', 'intersect':` (cli.py line 831). -/
def processOps (name : String) (ops : List (String × List String))
    (acc : List (String × Option PkgSet) × PkgSet) :
    Except String (List (String × Option PkgSet) × PkgSet) := do
  let acc ← processSetop name ops "add" acc
  let acc ← processSetop name ops "sub" acc
  processSetop name ops "intersect" acc

/-- One entry of the `packagesets:` loop (cli.py lines 814-846).  In the
Python code `pkgsets[name]` is assigned the (mutable) set object before
the set operations run; since a self-reference dies before any read, the
final write here is observationally the same. -/
def processEntry (arch : String) (flavor : Option String)
    (pkgsets : List (String × Option PkgSet)) (entry : PkgSetEntry) :
    Except String (List (String × Option PkgSet)) :=
  let name := entryName entry
  match alookup name pkgsets with
  | some (some _) => .error s!"package set {name} is already defined"
  | _ =>
    let pkgsets := aset name (none : Option PkgSet) pkgsets
    let skipFlavor :=
      match entry.flavors with
      | some fl => match flavor with
                   | none => true
                   | some f => !(fl.contains f)
      | none => false
    if skipFlavor then .ok pkgsets
    else
      let skipArch :=
        match entry.architectures with
        | some al => !(al.contains arch)
        | none => false
      if skipArch then .ok pkgsets
      else
        let ps : PkgSet := { name := name, supportstatus := entry.supportstatus, elements := [] }
        let ps :=
          match entry.packages with
          | some specs => if specs.isEmpty then ps else ps.add_specs specs
          | none => ps
        match processOps name entry.ops (pkgsets, ps) with
        | .error e => .error e
        | .ok (pkgsets, ps) => .ok (aset name (some ps) pkgsets)

/-- The legacy-entry loop of `create_package_set_compat`
(cli.py lines 792-803). -/
def buildCompatSet (setname : String) (entries : List CompatEntry) (arch : String)
    (flavor : Option String) : PkgSet :=
  entries.foldl
    (fun ps e =>
      match e with
      | .plain spec => ps.add_specs [spec]
      | .cond fl al specs =>
        let skipFlavor :=
          match fl with
          | some fl => match flavor with
                       | none => true
                       | some f => !(fl.contains f)
          | none => false
        if skipFlavor then ps
        else
          match al with
          | some al => if al.contains arch then ps.add_specs specs else ps
          | none => ps.add_specs specs)
    (PkgSet.new setname)

/-- `create_package_set_compat` (cli.py lines 782-803): the legacy flat
`packages:` / `unpack_packages:` shape. -/
def create_package_set_compat (yml : Yml) (arch : String) (flavor : Option String)
    (setname : String) : Option PkgSet :=
  if setname = "main" then
    match yml.packages with
    | none => none
    | some entries => some (buildCompatSet setname entries arch flavor)
  else if setname = "unpack" then
    match yml.unpack_packages with
    | none => some (PkgSet.new "unpack")
    | some entries => some (buildCompatSet setname entries arch flavor)
  else none

/-- `create_package_set` (cli.py lines 806-852): evaluate the package-set
declarations for one (architecture, flavor) and return the requested set;
`die` is modelled as `Except.error`. -/
def create_package_set (yml : Yml) (arch : String) (flavor : Option String)
    (setname : String) : Except String PkgSet :=
  match yml.packagesets with
  | none =>
    match create_package_set_compat yml arch flavor setname with
    | none => .error s!"package set {setname} is not defined"
    | some ps => .ok ps
  | some entries =>
    match entries.foldlM (processEntry arch flavor) [] with
    | .error e => .error e
    | .ok pkgsets =>
      match alookup setname pkgsets with
      | none => .error s!"package set {setname} is not defined"
      | some none => .ok (PkgSet.new setname)
      | some (some ps) => .ok ps

/-- Modelled from the spec: the source-package reference embedded in a
binary package (`rpm.get_src_package()`; `Package.py` is not in the
sources). -/
structure SrcRef where
  name : String
  arch : String
  version : String
  release : String
deriving DecidableEq, Repr

/-- Modelled from the spec: a resolved pool entry (§3).  Identity fields
as consumed by `write_report_file`; `srcpkg` is `get_src_package()`,
`none` when the binary carries no source reference. -/
structure Package where
  name : String
  epoch : Option Nat
  version : String
  release : String
  arch : String
  location : String
  origin : String
  buildtime : Option Nat
  disturl : Option String
  license : Option String
  product_cpeid : Option String
  srcpkg : Option SrcRef
deriving DecidableEq, Repr

/-- The Pool lookup interface used by the orchestrator (`Pool.py` is not
in the sources, so the two lookups are abstract functions of
(architecture, name, operator, epoch, version, release)). -/
structure Pool where
  lookupRpm : String → String → Option String → Option Nat → Option String → Option String → Option Package
  lookupAllRpms : String → String → Option String → Option Nat → Option String → Option String → List Package

/-- The diagnostics printed by `link_rpms_to_tree`, kept as structured
data: `missingPackage` is `warn(f"package {sel} not found for {arch}")`,
`noSourceRpm` is `warn(f"package {rpm} does not have a source rpm")`, and
`missingSourceRpm` is `warn(f"source rpm package {srcrpm} not found", ...)`. -/
inductive Warning where
  | missingPackage (sel : Selector) (arch : String)
  | noSourceRpm (rpm : Package)
  | missingSourceRpm (src : SrcRef) (requiredBy : Package)
deriving DecidableEq, Repr

/-- The mutable state touched by the linking phase: the output
filesystem (output path ↦ linked source file), the provenance manifest
`tree_report` (output path ↦ Package), the process-wide `supportstatus`
table (whose values may be `None`, hence `Option String`), and the
printed warnings. -/
structure BuildState where
  fs : List (String × String)
  tree_report : List (String × Package)
  supportstatus : List (String × Option String)
  warnings : List Warning
deriving DecidableEq, Repr

def emptyBuildState : BuildState :=
  { fs := [], tree_report := [], supportstatus := [], warnings := [] }

/-- `os.path.basename`. -/
def basename (p : String) : String :=
  (strSplit '/' p).getLastD ""

/-- The output path of a package under a tree directory
(`directory + '/' + entry.arch + '/' + os.path.basename(entry.location)`). -/
def outnameOf (entry : Package) (directory : String) : String :=
  directory ++ "/" ++ entry.arch ++ "/" ++ basename entry.location

/-- `link_file_into_dir` (cli.py lines 913-923): materialize `filename`
in `directory` unless the output name already exists (hard link and
symlink-copy both materialize the file, so one fs entry models either). -/
def link_file_into_dir (filename directory : String) (st : BuildState) : BuildState :=
  let outname := directory ++ "/" ++ basename filename
  if (alookup outname st.fs).isSome then st
  else { st with fs := st.fs ++ [(outname, filename)] }

/-- `add_entry_to_report` (cli.py lines 936-939): first one wins. -/
def add_entry_to_report (entry : Package) (outname : String) (st : BuildState) : BuildState :=
  if (alookup outname st.tree_report).isSome then st
  else { st with tree_report := st.tree_report ++ [(outname, entry)] }

/-- `entry.location.removesuffix('.rpm')`. -/
def removeRpmSuffix (s : String) : String :=
  if strEndsWith s ".rpm" then String.mk (s.data.take (s.data.length - 4)) else s

/-- `link_entry_into_dir` (cli.py lines 926-934).  `srcExists` models
`os.path.exists` on the repository side (the `.slsa_provenance.json`
probe). -/
def link_entry_into_dir (srcExists : String → Bool) (add_slsa : Bool) (entry : Package)
    (directory : String) (st : BuildState) : BuildState :=
  let outname := outnameOf entry directory
  if (alookup outname st.fs).isSome then st
  else
    let st := link_file_into_dir entry.location (directory ++ "/" ++ entry.arch) st
    let st := add_entry_to_report entry outname st
    if add_slsa then
      let slsaname := removeRpmSuffix entry.location ++ ".slsa_provenance.json"
      if srcExists slsaname then link_file_into_dir slsaname (directory ++ "/" ++ entry.arch) st
      else st
    else st

/-- The inputs of the linking phase that are external to the YAML
document: the pool, the `supportstatus_override` table loaded from
`supportstatus.txt`, and the repository-side filesystem probe. -/
structure LinkEnv where
  pool : Pool
  override : List (String × String)
  srcExists : String → Bool

/-- `singlemode` (cli.py lines 856-858). -/
def singlemode (yml : Yml) : Bool :=
  !(yml.build_options.contains "take_all_available_versions")

/-- The packages a Selector resolves to (cli.py lines 867-871):
`lookup_rpm` wrapped in `[rpm] if rpm else []` in single mode,
`lookup_all_rpms` in multi mode. -/
def rpmsOf (pool : Pool) (single : Bool) (arch : String) (sel : Selector) : List Package :=
  if single then
    match pool.lookupRpm arch sel.name sel.op sel.epoch sel.version sel.release with
    | some rpm => [rpm]
    | none => []
  else
    pool.lookupAllRpms arch sel.name sel.op sel.epoch sel.version sel.release

/-- The companion-resolution tail of the `for rpm in rpms:` body
(cli.py lines 885-907): resolve the exact-EVR source package into the
source sub-tree when requested (its absence is a missing-package
condition), then best-effort resolve the debugsource/debuginfo
companions into the debug sub-tree. -/
def companionStep (env : LinkEnv) (arch : String) (debugdir sourcedir : Option String)
    (add_slsa : Bool) (acc : BuildState × Bool) (rpm : Package) : BuildState × Bool :=
  let st := acc.1
  match rpm.srcpkg with
  | none => ({ st with warnings := st.warnings ++ [Warning.noSourceRpm rpm] }, acc.2)
  | some src =>
    let (st, missing) :=
      match sourcedir with
      | some sdir =>
        match env.pool.lookupRpm src.arch src.name (some "=") none (some src.version) (some src.release) with
        | some srpm => (link_entry_into_dir env.srcExists add_slsa srpm sdir st, acc.2)
        | none => ({ st with warnings := st.warnings ++ [Warning.missingSourceRpm src rpm] }, true)
      | none => (st, acc.2)
    match debugdir with
    | some ddir =>
      let st :=
        match env.pool.lookupRpm arch (src.name ++ "-debugsource") (some "=") none (some src.version) (some src.release) with
        | some drpm => link_entry_into_dir env.srcExists add_slsa drpm ddir st
        | none => st
      let st :=
        match env.pool.lookupRpm arch (rpm.name ++ "-debuginfo") (some "=") rpm.epoch (some rpm.version) (some rpm.release) with
        | some drpm => link_entry_into_dir env.srcExists add_slsa drpm ddir st
        | none => st
      (st, missing)
    | none => (st, missing)

/-- The body of `for rpm in rpms:` (cli.py lines 878-907): link the
binary, record the support status (override wins over the selector's
set-level status), then resolve the source and debug companions. -/
def linkOneRpm (env : LinkEnv) (arch rpmdir : String) (debugdir sourcedir : Option String)
    (add_slsa : Bool) (sel : Selector) (acc : BuildState × Bool) (rpm : Package) :
    BuildState × Bool :=
  let st := link_entry_into_dir env.srcExists add_slsa rpm rpmdir acc.1
  let status :=
    match alookup rpm.name env.override with
    | some s => some s
    | none => sel.supportstatus
  let st := { st with supportstatus := aset rpm.name status st.supportstatus }
  companionStep env arch debugdir sourcedir add_slsa (st, acc.2) rpm

/-- The body of `for sel in main_pkgset:` (cli.py lines 866-907): resolve
the Selector; on failure warn (naming the selector and the architecture)
and record the missing-package condition, otherwise process every
resolved package. -/
def linkSelector (env : LinkEnv) (arch rpmdir : String) (debugdir sourcedir : Option String)
    (add_slsa single : Bool) (acc : BuildState × Bool) (sel : Selector) :
    BuildState × Bool :=
  let rpms := rpmsOf env.pool single arch sel
  if rpms.isEmpty then
    ({ acc.1 with warnings := acc.1.warnings ++ [Warning.missingPackage sel arch] }, true)
  else
    rpms.foldl (linkOneRpm env arch rpmdir debugdir sourcedir add_slsa sel) acc

/-- `link_rpms_to_tree` (cli.py lines 855-910).  A `die` inside
`create_package_set` is an immediate `Except.error`; the aggregated
missing-package abort at the end is returned as `some msg` next to the
final state (the warnings were printed before the abort decision). -/
def link_rpms_to_tree (env : LinkEnv) (yml : Yml) (arch : String) (flavor : Option String)
    (rpmdir : String) (debugdir sourcedir : Option String) (st : BuildState) :
    Except String (BuildState × Option String) :=
  let single := singlemode yml
  let add_slsa := yml.build_options.contains "add_slsa_provenance"
  match create_package_set yml arch flavor "main" with
  | .error e => .error e
  | .ok main_pkgset =>
    let res := main_pkgset.elements.foldl
      (linkSelector env arch rpmdir debugdir sourcedir add_slsa single) (st, false)
    if res.2 && !(yml.build_options.contains "ignore_missing_packages") then
      .ok (res.1, some "Abort due to missing packages")
    else
      .ok (res.1, none)

/-- Whether the exact-EVR source companion of a resolved package fails to
resolve while a source sub-tree is requested (the condition under which
cli.py line 898 sets `missing_package`). -/
def srcLookupFails (pool : Pool) (sourcedir : Option String) (rpm : Package) : Bool :=
  match rpm.srcpkg, sourcedir with
  | some src, some _ =>
    (pool.lookupRpm src.arch src.name (some "=") none (some src.version) (some src.release)).isNone
  | _, _ => false

/-- Whether processing a Selector leaves the run in a missing-package
condition: the Selector resolved to nothing, or a resolved package's
required source companion is absent. -/
def selMissing (pool : Pool) (single : Bool) (arch : String) (sourcedir : Option String)
    (sel : Selector) : Bool :=
  let rpms := rpmsOf pool single arch sel
  rpms.isEmpty || rpms.any (srcLookupFails pool sourcedir)

/-- Recognizes the per-selector "package ... not found for ..." warning. -/
def isMissingPkgWarning : Warning → Bool
  | .missingPackage _ _ => true
  | _ => false

/-- The support status effectively recorded for a name: mirrors the
consumer check `name in supportstatus and supportstatus[name] is not
None` (cli.py line 561). -/
def effectiveSupportstatus (m : List (String × Option String)) (name : String) : Option String :=
  match alookup name m with
  | some (some s) => some s
  | _ => none

/-- A sequence of link operations against the shared output tree and
provenance manifest, each `(package, tree directory)`; quantifying over
such sequences states the first-writer-wins contract for the whole run. -/
def linkSequence (srcExists : String → Bool) (add_slsa : Bool)
    (ops : List (Package × String)) (st : BuildState) : BuildState :=
  ops.foldl (fun st pr => link_entry_into_dir srcExists add_slsa pr.1 pr.2 st) st

/-- One `<binary>` element of the report file: its text (the origin URI)
and its attributes in emission order. -/
structure ReportBinary where
  text : String
  attrs : List (String × String)
deriving DecidableEq, Repr

/-- Attribute emission of `write_report_file` (cli.py lines 951-960):
skip `None` and empty values. -/
def attrOf (tag : String) (val : Option String) : List (String × String) :=
  match val with
  | none => []
  | some v => if v = "" then [] else [(tag, v)]

/-- The `<binary>` element built for one manifest entry
(cli.py lines 949-964): identity attributes in loop order, epoch 0
suppressed, `arch` renamed to `binaryarch`, and the `cpeid` attribute for
`-release` packages. -/
def mkBinary (entry : Package) : ReportBinary :=
  let epochAttr :=
    match entry.epoch with
    | none => []
    | some e => if e = 0 then [] else [("epoch", toString e)]
  let buildtimeAttr :=
    match entry.buildtime with
    | none => []
    | some t => [("buildtime", toString t)]
  let cpeidAttr :=
    if strEndsWith entry.name "-release" then
      match entry.product_cpeid with
      | none => []
      | some c => if c = "" then [] else [("cpeid", c)]
    else []
  { text := "obs://" ++ entry.origin,
    attrs := attrOf "name" (some entry.name) ++ epochAttr ++ attrOf "version" (some entry.version)
      ++ attrOf "release" (some entry.release) ++ attrOf "binaryarch" (some entry.arch)
      ++ buildtimeAttr ++ attrOf "disturl" entry.disturl ++ attrOf "license" entry.license
      ++ cpeidAttr }

/-- `directory if directory.endswith('/') else directory + '/'`
(cli.py lines 944-945). -/
def reportDirSlash (directory : String) : String :=
  if strEndsWith directory "/" then directory else directory ++ "/"

/-- Insert a manifest item into a list sorted by output path. -/
def insertPair (p : String × Package) : List (String × Package) → List (String × Package)
  | [] => [p]
  | q :: rest => if strLeB p.1.data q.1.data then p :: q :: rest else q :: insertPair p rest

/-- `sorted(tree_report.items())`: the manifest items in ascending order
of output path (paths are unique in the manifest, so the tuple order is
the path order). -/
def sortPairs : List (String × Package) → List (String × Package)
  | [] => []
  | p :: rest => insertPair p (sortPairs rest)

/-- The filtered, ordered manifest slice emitted by `write_report_file`
(cli.py lines 942-966), with the output path kept alongside each built
`<binary>` element. -/
def writeReportEntries (tr : List (String × Package)) (directory : String) :
    List (String × ReportBinary) :=
  let d := reportDirSlash directory
  ((sortPairs tr).filter (fun p => strStartsWith p.1 d)).map (fun p => (p.1, mkBinary p.2))

/-- `write_report_file`: the `<binary>` elements written to the report of
one output sub-tree, in emission order. -/
def write_report_file (tr : List (String × Package)) (directory : String) :
    List ReportBinary :=
  (writeReportEntries tr directory).map Prod.snd

/-- The name computed by `get_product_dir` before the architecture step
(cli.py lines 196-201): product name and version, the optional manual
override, and the flavor suffix unless hidden. -/
def productNameBase (yml : Yml) (flavor : Option String) : String :=
  let name := yml.name ++ "-" ++ yml.version
  let name :=
    match yml.product_directory_name with
    | some n => n
    | none => name
  match flavor with
  | some f =>
    if yml.build_options.contains "hide_flavor_in_product_directory_name" then name
    else name ++ "-" ++ f
  | none => name

/-- `get_product_dir` (cli.py lines 195-211).  The Python function
mutates `yml['architectures']` in place (`visible_archs` aliases the
list); the returned `Yml` carries that mutation, and `die` on a `/` in
the name is `Except.error`. -/
def get_product_dir (yml : Yml) (flavor : Option String) (release : Option String) :
    Except String (String × Yml) :=
  let name := productNameBase yml flavor
  let (name, yml) :=
    if yml.architectures.isEmpty then (name, yml)
    else
      let visible :=
        if yml.architectures.contains "local" then yml.architectures.erase "local"
        else yml.architectures
      (name ++ "-" ++ joinSep "-" visible, { yml with architectures := visible })
  let name :=
    match release with
    | some r => name ++ "-Build" ++ r
    | none => name
  if strContains name '/' then .error "Illegal product name"
  else .ok (name, yml)

/-- The architecture list iterated by the per-architecture loops of
`create_tree` (cli.py lines 258-262): the loops read
`yml['architectures']` from the same document object that
`get_product_dir` mutated. -/
def createTreeArchLoop (yml : Yml) : List String :=
  yml.architectures

/-- A concrete binary package without a source reference, used to
instantiate the theorems below. -/
def pkgFoo : Package :=
  { name := "foo", epoch := none, version := "1.0", release := "1", arch := "x86_64",
    location := "repos/x86_64/foo-1.0-1.x86_64.rpm", origin := "project/repo/x/foo",
    buildtime := none, disturl := none, license := none, product_cpeid := none,
    srcpkg := none }

/-- A concrete source-package reference. -/
def srcFoo : SrcRef :=
  { name := "foo", arch := "src", version := "1.0", release := "1" }

/-- A concrete binary package carrying a source reference. -/
def pkgFooWithSrc : Package :=
  { pkgFoo with srcpkg := some srcFoo }

/-- A concrete pool that resolves only `foo` on `x86_64`. -/
def pool0 : Pool :=
  { lookupRpm := fun arch name _ _ _ _ =>
      if arch = "x86_64" && name = "foo" then some pkgFoo else none,
    lookupAllRpms := fun arch name _ _ _ _ =>
      if arch = "x86_64" && name = "foo" then [pkgFoo] else [] }

/-- A concrete link environment over `pool0` with an empty override table. -/
def env0 : LinkEnv :=
  { pool := pool0, override := [], srcExists := fun _ => false }

/-- A concrete configuration whose main set names `foo` (resolvable) and
`bar` (missing). -/
def ymlMain : Yml :=
  { name := "Prod", version := "1.0", product_directory_name := none, build_options := [],
    architectures := ["x86_64"],
    packagesets := some [{ name := some "main", flavors := none, architectures := none,
                           supportstatus := none, packages := some ["foo", "bar"], ops := [] }],
    packages := none, unpack_packages := none }

/-- The main set that `ymlMain` evaluates to. -/
def psMain : PkgSet :=
  { name := "main", supportstatus := none,
    elements := [{ name := "foo", op := none, epoch := none, version := none, release := none,
                   supportstatus := none },
                 { name := "bar", op := none, epoch := none, version := none, release := none,
                   supportstatus := none }] }

/-- A configuration whose single packageset entry references itself in an
`add` operation. -/
def ymlSelfRef : Yml :=
  { ymlMain with
    packagesets := some [{ name := some "a", flavors := none, architectures := none,
                           supportstatus := none, packages := none, ops := [("add", ["a"])] }] }

/-- A configuration whose single packageset entry carries an operation
key outside {add, sub, intersect}, with an undeclared operand. -/
def ymlUnknownOp : Yml :=
  { ymlMain with
    packagesets := some [{ name := some "a", flavors := none, architectures := none,
                           supportstatus := none, packages := none, ops := [("mult", ["b"])] }] }

/-- A configuration declaring the name `a` twice, where the first entry
is filtered out by its architecture guard. -/
def ymlDup : Yml :=
  { ymlMain with
    packagesets := some [{ name := some "a", flavors := none, architectures := some ["aarch64"],
                           supportstatus := none, packages := none, ops := [] },
                         { name := some "a", flavors := none, architectures := none,
                           supportstatus := none, packages := some ["foo"], ops := [] }] }

/-- A single-entry configuration, parametric in the entry name, one
set-operation key and its single operand. -/
def mkSingleOpYml (n setop o : String) : Yml :=
  { ymlMain with
    packagesets := some [{ name := some n, flavors := none, architectures := none,
                           supportstatus := none, packages := none, ops := [(setop, [o])] }] }

/-- A configuration whose architecture list contains `local`. -/
def ymlProd : Yml :=
  { ymlMain with architectures := ["x86_64", "local"], packagesets := none }

/-- A build state in which `pkgFoo` has already been linked and recorded
under the `out` tree. -/
def stWithFoo : BuildState :=
  { fs := [(outnameOf pkgFoo "out", pkgFoo.location)],
    tree_report := [(outnameOf pkgFoo "out", pkgFoo)],
    supportstatus := [], warnings := [] }

/-- The warnings appended by the companion-resolution part of the
per-package loop body: the "no source rpm" diagnostic, and the "source
rpm package ... not found" diagnostic when a source sub-tree is requested
and the exact-EVR source lookup fails.  Debug lookups never warn. -/
def companionWarnings (pool : Pool) (sourcedir : Option String) (rpm : Package) : List Warning :=
  match rpm.srcpkg with
  | none => [Warning.noSourceRpm rpm]
  | some src =>
    match sourcedir with
    | some _ =>
      if (pool.lookupRpm src.arch src.name (some "=") none (some src.version)
            (some src.release)).isNone
      then [Warning.missingSourceRpm src rpm]
      else []
    | none => []

/-- The unconstrained Selector for `foo`. -/
def selFoo : Selector :=
  { name := "foo", op := none, epoch := none, version := none, release := none,
    supportstatus := none }

/-- The unconstrained Selector for `bar`. -/
def selBar : Selector :=
  { name := "bar", op := none, epoch := none, version := none, release := none,
    supportstatus := none }

/-- C5 counterexample: a packageset entry `a` whose `add` operation
references the set itself is a fatal configuration error — the code does
not treat self-reference as an empty placeholder. -/
theorem self_reference_operand_dies_cex :
    create_package_set ymlSelfRef "x86_64" none "a" = .error "package set a does not exist" := by
  rfl

/-- C5 (amended): in package-set algebra, referencing an operand set that
has not been declared is a fatal configuration error, and a set
referencing itself is likewise fatal — for any entry name `n`, operand
`o` (equal to `n` or not), and any of the three set operations, the
single-entry configuration dies with "package set `o` does not exist". -/
theorem undeclared_or_self_operand_fatal (n o arch setname : String) (flavor : Option String)
    (setop : String) (hop : setop = "add" ∨ setop = "sub" ∨ setop = "intersect") :
    create_package_set (mkSingleOpYml n setop o) arch flavor setname
      = .error s!"package set {o} does not exist" := by
  rcases eq_or_ne o n with ho | ho
  · subst ho
    rcases hop with h | h | h <;> subst h <;>
      simp [create_package_set, mkSingleOpYml, ymlMain, processEntry, processOps, processSetop,
            processOperand, alookup, aset, entryName, PkgSet.new, List.foldlM,
            Bind.bind, Except.bind, Pure.pure, Except.pure]
  · rcases hop with h | h | h <;> subst h <;>
      simp [create_package_set, mkSingleOpYml, ymlMain, processEntry, processOps, processSetop,
            processOperand, alookup, aset, entryName, PkgSet.new, List.foldlM,
            Bind.bind, Except.bind, Pure.pure, Except.pure, ho, ho.symm]

/-- Witness for C5: the amended theorem applied to the self-referencing
operand `a` of set `a` under the `add` operation. -/
theorem undeclared_or_self_operand_fatal_witness :
    create_package_set (mkSingleOpYml "a" "add" "a") "x86_64" none "a"
      = .error "package set a does not exist" :=
  undeclared_or_self_operand_fatal "a" "a" "x86_64" "a" none "add" (Or.inl rfl)

/-- C6 counterexample: a packageset entry carrying the unknown operation
key `mult` (with an undeclared operand) is accepted without error and the
key has no effect — it is not rejected as a configuration error. -/
theorem unknown_setop_not_rejected_cex :
    create_package_set ymlUnknownOp "x86_64" none "a" = .ok (PkgSet.new "a") := by
  rfl

/-- C6 (amended): an operation name outside {add, sub, intersect} in a
packageset entry is silently ignored — processing an entry whose
operation table starts with such a key is identical to processing the
entry without it. -/
theorem unknown_setop_silently_ignored (arch : String) (flavor : Option String)
    (pkgsets : List (String × Option PkgSet)) (e : PkgSetEntry) (k : String)
    (v : List String) (rest : List (String × List String))
    (h1 : k ≠ "add") (h2 : k ≠ "sub") (h3 : k ≠ "intersect") :
    processEntry arch flavor pkgsets { e with ops := (k, v) :: rest }
      = processEntry arch flavor pkgsets { e with ops := rest } := by
  have hadd : ∀ nm acc, processSetop nm ((k, v) :: rest) "add" acc
      = processSetop nm rest "add" acc := by
    intro nm acc; simp [processSetop, alookup, h1]
  have hsub : ∀ nm acc, processSetop nm ((k, v) :: rest) "sub" acc
      = processSetop nm rest "sub" acc := by
    intro nm acc; simp [processSetop, alookup, h2]
  have hint : ∀ nm acc, processSetop nm ((k, v) :: rest) "intersect" acc
      = processSetop nm rest "intersect" acc := by
    intro nm acc; simp [processSetop, alookup, h3]
  simp [processEntry, processOps, entryName, hadd, hsub, hint]

/-- Witness for C6: the amended theorem applied to the key `mult`. -/
theorem unknown_setop_silently_ignored_witness :
    processEntry "x86_64" none []
      { name := some "a", flavors := none, architectures := none, supportstatus := none,
        packages := none, ops := [("mult", ["b"])] }
      = processEntry "x86_64" none []
          { name := some "a", flavors := none, architectures := none, supportstatus := none,
            packages := none, ops := [] } :=
  unknown_setop_silently_ignored "x86_64" none []
    { name := some "a", flavors := none, architectures := none, supportstatus := none,
      packages := none, ops := [] }
    "mult" ["b"] [] (by decide) (by decide) (by decide)

/-- C8 counterexample: two packageset entries both named `a`, where the
first is skipped by its architecture guard, are accepted — the second
declaration proceeds without a duplicate-name error. -/
theorem duplicate_setname_after_skip_cex :
    create_package_set ymlDup "x86_64" none "a"
      = .ok { name := "a", supportstatus := none,
              elements := [{ name := "foo", op := none, epoch := none, version := none,
                             release := none, supportstatus := none }] } := by
  rfl

/-- C8 (amended): declaring a packageset entry whose name is already
bound to an instantiated set (an earlier entry of that name whose
flavor/architecture guards matched) is a fatal, immediate configuration
error; the error is raised before the entry's own guards are consulted. -/
theorem duplicate_setname_fatal_when_instantiated (arch : String) (flavor : Option String)
    (pkgsets : List (String × Option PkgSet)) (e : PkgSetEntry) (q : PkgSet) (n : String)
    (hn : entryName e = n) (h : alookup n pkgsets = some (some q)) :
    processEntry arch flavor pkgsets e = .error s!"package set {n} is already defined" := by
  simp [processEntry, hn, h]

/-- Witness for C8: the amended theorem applied to a second entry named
`a` after the first was instantiated. -/
theorem duplicate_setname_fatal_when_instantiated_witness :
    processEntry "x86_64" none [("a", some (PkgSet.new "a"))]
      { name := some "a", flavors := none, architectures := none, supportstatus := none,
        packages := none, ops := [] }
      = .error "package set a is already defined" :=
  duplicate_setname_fatal_when_instantiated "x86_64" none [("a", some (PkgSet.new "a"))]
    { name := some "a", flavors := none, architectures := none, supportstatus := none,
      packages := none, ops := [] }
    (PkgSet.new "a") "a" rfl rfl

/-- C10: computing the product directory name mutates the configuration:
the returned document's architecture list is the input list with the
first `local` entry removed, that same list is what the subsequent
per-architecture loops of `create_tree` iterate, `local` is gone entirely
when it occurred at most once, and the directory name joins exactly the
mutated list. -/
theorem product_dir_mutates_shared_architectures (yml : Yml) (flavor release : Option String)
    (nm : String) (yml' : Yml)
    (h : get_product_dir yml flavor release = .ok (nm, yml')) :
    yml'.architectures = yml.architectures.erase "local"
    ∧ createTreeArchLoop yml' = yml.architectures.erase "local"
    ∧ (yml.architectures.count "local" ≤ 1 → "local" ∉ yml'.architectures)
    ∧ (yml.architectures ≠ [] →
        ∃ base suffx, nm = base ++ "-" ++ joinSep "-" (yml.architectures.erase "local") ++ suffx) := by
  by_cases hA : yml.architectures.isEmpty
  · have hnil : yml.architectures = [] := List.isEmpty_iff.mp hA
    rcases release with _ | r <;>
      (simp only [get_product_dir, hA, if_true] at h
       split at h
       · simp at h
       · rw [Except.ok.injEq, Prod.mk.injEq] at h
         obtain ⟨h1, h2⟩ := h
         subst h2
         exact ⟨by simp [hnil], by simp [createTreeArchLoop, hnil], by simp [hnil],
                fun hne => absurd hnil hne⟩)
  · by_cases hL : yml.architectures.contains "local"
    · have hcnt : ∀ _ : yml.architectures.count "local" ≤ 1,
          "local" ∉ yml.architectures.erase "local" := by
        intro hcount
        have hc := List.count_erase_self "local" yml.architectures
        have hz : (yml.architectures.erase "local").count "local" = 0 := by omega
        exact List.count_eq_zero.mp hz
      rcases release with _ | r
      · simp only [get_product_dir, hA, hL, if_true, Bool.false_eq_true, if_false] at h
        split at h
        · simp at h
        · rw [Except.ok.injEq, Prod.mk.injEq] at h
          obtain ⟨h1, h2⟩ := h
          subst h2
          refine ⟨rfl, rfl, hcnt, fun _ => ⟨productNameBase yml flavor, "", ?_⟩⟩
          rw [← h1, String.append_assoc, String.append_empty]
      · simp only [get_product_dir, hA, hL, if_true, Bool.false_eq_true, if_false] at h
        split at h
        · simp at h
        · rw [Except.ok.injEq, Prod.mk.injEq] at h
          obtain ⟨h1, h2⟩ := h
          subst h2
          refine ⟨rfl, rfl, hcnt, fun _ => ⟨productNameBase yml flavor, "-Build" ++ r, ?_⟩⟩
          rw [← h1, String.append_assoc, String.append_assoc]
    · have hnmem : "local" ∉ yml.architectures := by simpa using hL
      have herase : yml.architectures.erase "local" = yml.architectures :=
        List.erase_of_not_mem hnmem
      rcases release with _ | r
      · simp only [get_product_dir, hA, hL, Bool.false_eq_true, if_false] at h
        split at h
        · simp at h
        · rw [Except.ok.injEq, Prod.mk.injEq] at h
          obtain ⟨h1, h2⟩ := h
          subst h2
          refine ⟨by simp [herase], by simp [createTreeArchLoop, herase],
                  fun _ => by simpa using hnmem,
                  fun _ => ⟨productNameBase yml flavor, "", ?_⟩⟩
          rw [← h1, herase, String.append_assoc, String.append_empty]
      · simp only [get_product_dir, hA, hL, Bool.false_eq_true, if_false] at h
        split at h
        · simp at h
        · rw [Except.ok.injEq, Prod.mk.injEq] at h
          obtain ⟨h1, h2⟩ := h
          subst h2
          refine ⟨by simp [herase], by simp [createTreeArchLoop, herase],
                  fun _ => by simpa using hnmem,
                  fun _ => ⟨productNameBase yml flavor, "-Build" ++ r, ?_⟩⟩
          rw [← h1, herase, String.append_assoc, String.append_assoc]

/-- Witness for C10: an architecture list `[x86_64, local]` loses
`local` for the directory name and for the subsequent loops. -/
theorem product_dir_mutates_shared_architectures_witness :
    ({ ymlProd with architectures := ["x86_64"] } : Yml).architectures
        = ymlProd.architectures.erase "local"
    ∧ createTreeArchLoop { ymlProd with architectures := ["x86_64"] }
        = ymlProd.architectures.erase "local"
    ∧ (ymlProd.architectures.count "local" ≤ 1 →
        "local" ∉ ({ ymlProd with architectures := ["x86_64"] } : Yml).architectures)
    ∧ (ymlProd.architectures ≠ [] →
        ∃ base suffx, "Prod-1.0-x86_64"
            = base ++ "-" ++ joinSep "-" (ymlProd.architectures.erase "local") ++ suffx) :=
  product_dir_mutates_shared_architectures ymlProd none none "Prod-1.0-x86_64"
    { ymlProd with architectures := ["x86_64"] } (by rfl)

theorem strLeB_trans (as bs cs : List Char) (h1 : strLeB as bs = true)
    (h2 : strLeB bs cs = true) : strLeB as cs = true := by
  induction as generalizing bs cs with
  | nil => simp [strLeB]
  | cons a as ih =>
    cases bs with
    | nil => simp [strLeB] at h1
    | cons b bs =>
      cases cs with
      | nil => simp [strLeB] at h2
      | cons c cs =>
        simp only [strLeB] at h1 h2 ⊢
        by_cases hab : a = b <;> by_cases hbc : b = c
        · subst hab; subst hbc
          simp at h1 h2 ⊢
          exact ih _ _ h1 h2
        · subst hab
          simp [hbc] at h2 ⊢
          exact h2
        · subst hbc
          simp [hab] at h1 ⊢
          exact h1
        · simp [hab, hbc] at h1 h2
          have hac : a < c := lt_trans h1 h2
          have hne : a ≠ c := ne_of_lt hac
          simp [hne, hac]

theorem strLeB_total (as bs : List Char) (h : strLeB as bs = false) : strLeB bs as = true := by
  induction as generalizing bs with
  | nil => simp [strLeB] at h
  | cons a as ih =>
    cases bs with
    | nil => simp [strLeB]
    | cons b bs =>
      simp only [strLeB] at h ⊢
      by_cases hab : a = b
      · subst hab
        simp at h ⊢
        exact ih _ h
      · have hba : b ≠ a := fun e => hab e.symm
        simp [hab] at h
        simp [hba]
        exact lt_of_le_of_ne h hba

theorem insertPair_mem (p a : String × Package) (l : List (String × Package)) :
    a ∈ insertPair p l ↔ a = p ∨ a ∈ l := by
  induction l with
  | nil => simp [insertPair]
  | cons q rest ih =>
    unfold insertPair
    by_cases hle : strLeB p.1.data q.1.data
    · simp [hle]
    · simp [hle, ih]
      tauto

theorem sortPairs_mem (a : String × Package) (l : List (String × Package)) :
    a ∈ sortPairs l ↔ a ∈ l := by
  induction l with
  | nil => simp [sortPairs]
  | cons q rest ih =>
    simp [sortPairs, insertPair_mem, ih]

theorem insertPair_pairwise (p : String × Package) (l : List (String × Package))
    (hl : l.Pairwise (fun a b => strLeB a.1.data b.1.data = true)) :
    (insertPair p l).Pairwise (fun a b => strLeB a.1.data b.1.data = true) := by
  induction l with
  | nil => simp [insertPair]
  | cons q rest ih =>
    rw [List.pairwise_cons] at hl
    obtain ⟨hq, hrest⟩ := hl
    unfold insertPair
    by_cases hle : strLeB p.1.data q.1.data
    · simp only [hle, if_true]
      rw [List.pairwise_cons]
      refine ⟨?_, ?_⟩
      · intro x hx
        rcases List.mem_cons.mp hx with rfl | hx2
        · exact hle
        · exact strLeB_trans _ _ _ hle (hq x hx2)
      · rw [List.pairwise_cons]
        exact ⟨hq, hrest⟩
    · simp only [hle, Bool.false_eq_true, if_false]
      rw [List.pairwise_cons]
      refine ⟨?_, ih hrest⟩
      intro x hx
      rcases (insertPair_mem p x rest).mp hx with rfl | hx2
      · exact strLeB_total _ _ (by simpa using hle)
      · exact hq x hx2

theorem sortPairs_pairwise (l : List (String × Package)) :
    (sortPairs l).Pairwise (fun a b => strLeB a.1.data b.1.data = true) := by
  induction l with
  | nil => simp [sortPairs]
  | cons q rest ih => exact insertPair_pairwise q _ ih

/-- C9: the report for an output sub-tree contains exactly the
provenance-manifest entries whose output path falls under that sub-tree
directory, in ascending output-path order, each entry being the
`<binary>` element built from the originating Package (origin URI text
and identity attributes). -/
theorem report_subtree_filter_sorted (tr : List (String × Package)) (directory : String) :
    ((writeReportEntries tr directory).map Prod.fst).Pairwise
        (fun a b => strLeB a.data b.data = true)
    ∧ (∀ fn b, (fn, b) ∈ writeReportEntries tr directory
        ↔ (strStartsWith fn (reportDirSlash directory) = true
            ∧ ∃ e, (fn, e) ∈ tr ∧ b = mkBinary e))
    ∧ (∀ e : Package, (mkBinary e).text = "obs://" ++ e.origin)
    ∧ write_report_file tr directory = (writeReportEntries tr directory).map Prod.snd := by
  refine ⟨?_, ?_, fun e => rfl, rfl⟩
  · have hf := (sortPairs_pairwise tr).filter
      (p := fun p => strStartsWith p.1 (reportDirSlash directory))
    simp only [writeReportEntries, List.map_map, List.pairwise_map]
    exact hf
  · intro fn b
    simp only [writeReportEntries, List.mem_map, List.mem_filter, sortPairs_mem]
    constructor
    · rintro ⟨⟨pfn, pe⟩, ⟨hmem, hg⟩, heq⟩
      simp only [Prod.mk.injEq] at heq
      obtain ⟨rfl, rfl⟩ := heq
      exact ⟨hg, pe, hmem, rfl⟩
    · rintro ⟨hpre, e, hmem, rfl⟩
      exact ⟨(fn, e), ⟨hmem, hpre⟩, rfl⟩


/-- Witness for C9: the manifest entry under `out/` appears in the report
slice for directory `out`. -/
theorem report_subtree_filter_sorted_witness :
    (outnameOf pkgFoo "out", mkBinary pkgFoo)
        ∈ writeReportEntries [(outnameOf pkgFoo "out", pkgFoo)] "out" :=
  ((report_subtree_filter_sorted [(outnameOf pkgFoo "out", pkgFoo)] "out").2.1
    (outnameOf pkgFoo "out") (mkBinary pkgFoo)).mpr
    ⟨by decide, pkgFoo, by decide, rfl⟩

theorem alookup_append {α : Type} (k : String) (l1 l2 : List (String × α)) :
    alookup k (l1 ++ l2)
      = match alookup k l1 with
        | some v => some v
        | none => alookup k l2 := by
  induction l1 with
  | nil => simp [alookup]
  | cons p rest ih =>
    obtain ⟨k', v⟩ := p
    by_cases hk : k' = k <;> simp [alookup, hk, ih]

theorem alookup_aset_self {α : Type} (k : String) (v : α) (m : List (String × α)) :
    alookup k (aset k v m) = some v := by
  induction m with
  | nil => simp [alookup, aset]
  | cons p rest ih =>
    obtain ⟨k', v'⟩ := p
    by_cases hk : k' = k <;> simp [alookup, aset, hk, ih]

theorem lfid_tree_report (f d : String) (st : BuildState) :
    (link_file_into_dir f d st).tree_report = st.tree_report := by
  simp only [link_file_into_dir]; split <;> rfl

theorem lfid_supportstatus (f d : String) (st : BuildState) :
    (link_file_into_dir f d st).supportstatus = st.supportstatus := by
  simp only [link_file_into_dir]; split <;> rfl

theorem lfid_warnings (f d : String) (st : BuildState) :
    (link_file_into_dir f d st).warnings = st.warnings := by
  simp only [link_file_into_dir]; split <;> rfl

theorem lfid_fs_preserved (f d : String) (st : BuildState) (k : String) (v : String)
    (h : alookup k st.fs = some v) : alookup k (link_file_into_dir f d st).fs = some v := by
  simp only [link_file_into_dir]
  split
  · exact h
  · simp only [alookup_append, h]

theorem lfid_fs_other (f d k : String) (st : BuildState) (hk : d ++ "/" ++ basename f ≠ k) :
    alookup k (link_file_into_dir f d st).fs = alookup k st.fs := by
  simp only [link_file_into_dir]
  split
  · rfl
  · simp only [alookup_append]
    cases h : alookup k st.fs with
    | some v => rfl
    | none => simp [alookup, hk]

theorem lfid_fs_new (f d : String) (st : BuildState)
    (h : alookup (d ++ "/" ++ basename f) st.fs = none) :
    alookup (d ++ "/" ++ basename f) (link_file_into_dir f d st).fs = some f := by
  simp only [link_file_into_dir]
  split
  · rename_i hs
    rw [h] at hs
    simp at hs
  · simp [alookup_append, h, alookup]

theorem aer_fs (entry : Package) (o : String) (st : BuildState) :
    (add_entry_to_report entry o st).fs = st.fs := by
  unfold add_entry_to_report; split <;> rfl

theorem aer_supportstatus (entry : Package) (o : String) (st : BuildState) :
    (add_entry_to_report entry o st).supportstatus = st.supportstatus := by
  unfold add_entry_to_report; split <;> rfl

theorem aer_warnings (entry : Package) (o : String) (st : BuildState) :
    (add_entry_to_report entry o st).warnings = st.warnings := by
  unfold add_entry_to_report; split <;> rfl

theorem aer_noop (entry : Package) (o : String) (st : BuildState)
    (h : (alookup o st.tree_report).isSome) : add_entry_to_report entry o st = st := by
  unfold add_entry_to_report
  simp [h]

theorem aer_report_preserved (entry : Package) (o : String) (st : BuildState) (k : String)
    (v : Package) (h : alookup k st.tree_report = some v) :
    alookup k (add_entry_to_report entry o st).tree_report = some v := by
  unfold add_entry_to_report
  split
  · exact h
  · simp only [alookup_append, h]

theorem aer_report_other (entry : Package) (o k : String) (st : BuildState) (hk : o ≠ k) :
    alookup k (add_entry_to_report entry o st).tree_report = alookup k st.tree_report := by
  unfold add_entry_to_report
  split
  · rfl
  · simp only [alookup_append]
    cases h : alookup k st.tree_report with
    | some v => rfl
    | none => simp [alookup, hk]

theorem aer_report_new (entry : Package) (o : String) (st : BuildState)
    (h : alookup o st.tree_report = none) :
    alookup o (add_entry_to_report entry o st).tree_report = some entry := by
  unfold add_entry_to_report
  split
  · rename_i hs
    rw [h] at hs
    simp at hs
  · simp [alookup_append, h, alookup]

theorem led_path_eq (entry : Package) (directory : String) :
    (directory ++ "/" ++ entry.arch) ++ "/" ++ basename entry.location
      = outnameOf entry directory := by
  simp [outnameOf, String.append_assoc]

theorem led_noop (srcE : String → Bool) (slsa : Bool) (entry : Package) (dir : String)
    (st : BuildState) (h : (alookup (outnameOf entry dir) st.fs).isSome) :
    link_entry_into_dir srcE slsa entry dir st = st := by
  simp [link_entry_into_dir, h]

theorem led_supportstatus (srcE : String → Bool) (slsa : Bool) (entry : Package) (dir : String)
    (st : BuildState) :
    (link_entry_into_dir srcE slsa entry dir st).supportstatus = st.supportstatus := by
  simp only [link_entry_into_dir]
  split
  · rfl
  · split
    · split <;> simp [lfid_supportstatus, aer_supportstatus]
    · simp [lfid_supportstatus, aer_supportstatus]

theorem led_warnings (srcE : String → Bool) (slsa : Bool) (entry : Package) (dir : String)
    (st : BuildState) :
    (link_entry_into_dir srcE slsa entry dir st).warnings = st.warnings := by
  simp only [link_entry_into_dir]
  split
  · rfl
  · split
    · split <;> simp [lfid_warnings, aer_warnings]
    · simp [lfid_warnings, aer_warnings]

theorem led_fs_preserved (srcE : String → Bool) (slsa : Bool) (entry : Package) (dir : String)
    (st : BuildState) (k v : String) (h : alookup k st.fs = some v) :
    alookup k (link_entry_into_dir srcE slsa entry dir st).fs = some v := by
  have h1 := lfid_fs_preserved entry.location (dir ++ "/" ++ entry.arch) st k v h
  simp only [link_entry_into_dir]
  split
  · exact h
  · split
    · split
      · refine lfid_fs_preserved _ _ _ _ _ ?_
        rw [aer_fs]
        exact h1
      · rw [aer_fs]; exact h1
    · rw [aer_fs]; exact h1

theorem led_fs_outname (srcE : String → Bool) (slsa : Bool) (entry : Package) (dir : String)
    (st : BuildState) :
    (alookup (outnameOf entry dir) (link_entry_into_dir srcE slsa entry dir st).fs).isSome
      = true := by
  simp only [link_entry_into_dir]
  split
  · rename_i h
    exact h
  · rename_i h
    have hn : alookup (outnameOf entry dir) st.fs = none := by
      simpa using h
    have h1 : alookup (outnameOf entry dir)
        (link_file_into_dir entry.location (dir ++ "/" ++ entry.arch) st).fs
        = some entry.location := by
      rw [← led_path_eq entry dir]
      exact lfid_fs_new _ _ _ (by rw [led_path_eq]; exact hn)
    split
    · split
      · have h2 : alookup (outnameOf entry dir)
            (add_entry_to_report entry (outnameOf entry dir)
              (link_file_into_dir entry.location (dir ++ "/" ++ entry.arch) st)).fs
            = some entry.location := by
          rw [aer_fs]; exact h1
        rw [lfid_fs_preserved _ _ _ _ _ h2]
        rfl
      · rw [aer_fs, h1]; rfl
    · rw [aer_fs, h1]; rfl

theorem led_report_preserved (srcE : String → Bool) (slsa : Bool) (entry : Package) (dir : String)
    (st : BuildState) (k : String) (v : Package) (h : alookup k st.tree_report = some v) :
    alookup k (link_entry_into_dir srcE slsa entry dir st).tree_report = some v := by
  have h1 : alookup k (link_file_into_dir entry.location (dir ++ "/" ++ entry.arch) st).tree_report
      = some v := by rw [lfid_tree_report]; exact h
  have h2 := aer_report_preserved entry (outnameOf entry dir) _ k v h1
  simp only [link_entry_into_dir]
  split
  · exact h
  · split
    · split
      · rw [lfid_tree_report]; exact h2
      · exact h2
    · exact h2

theorem led_report_other (srcE : String → Bool) (slsa : Bool) (entry : Package) (dir : String)
    (st : BuildState) (k : String) (hk : outnameOf entry dir ≠ k) :
    alookup k (link_entry_into_dir srcE slsa entry dir st).tree_report
      = alookup k st.tree_report := by
  simp only [link_entry_into_dir]
  split
  · rfl
  · split
    · split
      · rw [lfid_tree_report, aer_report_other _ _ _ _ hk, lfid_tree_report]
      · rw [aer_report_other _ _ _ _ hk, lfid_tree_report]
    · rw [aer_report_other _ _ _ _ hk, lfid_tree_report]

theorem led_fs_other (srcE : String → Bool) (entry : Package) (dir : String)
    (st : BuildState) (k : String) (hk : outnameOf entry dir ≠ k) :
    alookup k (link_entry_into_dir srcE false entry dir st).fs = alookup k st.fs := by
  simp only [link_entry_into_dir, Bool.false_eq_true, if_false]
  split
  · rfl
  · rw [aer_fs]
    refine lfid_fs_other _ _ _ _ ?_
    rw [led_path_eq]
    exact hk

theorem led_report_first (srcE : String → Bool) (slsa : Bool) (entry : Package) (dir : String)
    (st : BuildState) (hfs : alookup (outnameOf entry dir) st.fs = none)
    (hrep : alookup (outnameOf entry dir) st.tree_report = none) :
    alookup (outnameOf entry dir) (link_entry_into_dir srcE slsa entry dir st).tree_report
      = some entry := by
  have h1 : alookup (outnameOf entry dir)
      (link_file_into_dir entry.location (dir ++ "/" ++ entry.arch) st).tree_report = none := by
    rw [lfid_tree_report]; exact hrep
  have h2 := aer_report_new entry (outnameOf entry dir) _ h1
  simp only [link_entry_into_dir]
  split
  · rename_i h
    rw [hfs] at h
    simp at h
  · split
    · split
      · rw [lfid_tree_report]; exact h2
      · exact h2
    · exact h2

theorem led_fs_first (srcE : String → Bool) (entry : Package) (dir : String)
    (st : BuildState) (hfs : alookup (outnameOf entry dir) st.fs = none) :
    alookup (outnameOf entry dir) (link_entry_into_dir srcE false entry dir st).fs
      = some entry.location := by
  simp only [link_entry_into_dir, Bool.false_eq_true, if_false]
  split
  · rename_i h
    rw [hfs] at h
    simp at h
  · rw [aer_fs, ← led_path_eq entry dir]
    exact lfid_fs_new _ _ _ (by rw [led_path_eq]; exact hfs)

theorem linkSequence_cons (srcE : String → Bool) (slsa : Bool) (pr : Package × String)
    (rest : List (Package × String)) (st : BuildState) :
    linkSequence srcE slsa (pr :: rest) st
      = linkSequence srcE slsa rest (link_entry_into_dir srcE slsa pr.1 pr.2 st) := by
  simp [linkSequence]

theorem linkSequence_report_preserved (srcE : String → Bool) (slsa : Bool)
    (ops : List (Package × String)) (k : String) (v : Package) :
    ∀ st : BuildState, alookup k st.tree_report = some v →
      alookup k (linkSequence srcE slsa ops st).tree_report = some v := by
  induction ops with
  | nil => intro st h; exact h
  | cons pr rest ih =>
    intro st h
    rw [linkSequence_cons]
    exact ih _ (led_report_preserved _ _ _ _ _ _ _ h)

theorem linkSequence_fs_preserved (srcE : String → Bool) (slsa : Bool)
    (ops : List (Package × String)) (k v : String) :
    ∀ st : BuildState, alookup k st.fs = some v →
      alookup k (linkSequence srcE slsa ops st).fs = some v := by
  induction ops with
  | nil => intro st h; exact h
  | cons pr rest ih =>
    intro st h
    rw [linkSequence_cons]
    exact ih _ (led_fs_preserved _ _ _ _ _ _ _ h)

theorem linkSequence_lookup (srcE : String → Bool) (ops : List (Package × String)) (p : String) :
    ∀ st : BuildState, alookup p st.fs = none → alookup p st.tree_report = none →
      alookup p (linkSequence srcE false ops st).tree_report
          = (ops.find? (fun pr => outnameOf pr.1 pr.2 == p)).map Prod.fst
      ∧ alookup p (linkSequence srcE false ops st).fs
          = (ops.find? (fun pr => outnameOf pr.1 pr.2 == p)).map (fun pr => pr.1.location) := by
  induction ops with
  | nil =>
    intro st hfs hrep
    simp [linkSequence, hfs, hrep]
  | cons pr rest ih =>
    intro st hfs hrep
    rw [linkSequence_cons]
    by_cases hp : outnameOf pr.1 pr.2 = p
    · have hfind : (List.find? (fun pr => outnameOf pr.1 pr.2 == p) (pr :: rest)) = some pr := by
        simp [List.find?, hp]
      rw [hfind]
      constructor
      · refine linkSequence_report_preserved _ _ _ _ _ _ ?_
        rw [← hp]
        exact led_report_first _ _ _ _ _ (hp ▸ hfs) (hp ▸ hrep)
      · refine linkSequence_fs_preserved _ _ _ _ _ _ ?_
        rw [← hp]
        exact led_fs_first _ _ _ _ (hp ▸ hfs)
    · have hfind : (List.find? (fun pr => outnameOf pr.1 pr.2 == p) (pr :: rest))
          = List.find? (fun pr => outnameOf pr.1 pr.2 == p) rest := by
        have hb : (outnameOf pr.1 pr.2 == p) = false := beq_eq_false_iff_ne.mpr hp
        simp [List.find?, hb]
      rw [hfind]
      refine ih _ ?_ ?_
      · rw [led_fs_other _ _ _ _ _ hp]; exact hfs
      · rw [led_report_other _ _ _ _ _ _ hp]; exact hrep

/-- C3: first-writer-wins for the provenance manifest and the output
tree.  A link of a package whose output path already exists is a complete
no-op; registering an already-registered path is a no-op; and over any
sequence of link operations from a fresh state, both the manifest entry
and the filesystem entry of every output path are those of the first
operation that wrote that path. -/
theorem provenance_first_writer_wins :
    (∀ (srcE : String → Bool) (slsa : Bool) (entry : Package) (dir : String) (st : BuildState),
        (alookup (outnameOf entry dir) st.fs).isSome →
          link_entry_into_dir srcE slsa entry dir st = st)
    ∧ (∀ (entry : Package) (o : String) (st : BuildState),
        (alookup o st.tree_report).isSome → add_entry_to_report entry o st = st)
    ∧ (∀ (srcE : String → Bool) (ops : List (Package × String)) (p : String),
        alookup p (linkSequence srcE false ops emptyBuildState).tree_report
            = (ops.find? (fun pr => outnameOf pr.1 pr.2 == p)).map Prod.fst
        ∧ alookup p (linkSequence srcE false ops emptyBuildState).fs
            = (ops.find? (fun pr => outnameOf pr.1 pr.2 == p)).map (fun pr => pr.1.location)) :=
  ⟨led_noop, aer_noop,
   fun srcE ops p => linkSequence_lookup srcE ops p emptyBuildState rfl rfl⟩

/-- Witness for C3: linking `pkgFoo` under `out` twice — the second link
is a no-op on the state, and the manifest of the two-step sequence maps
the output path to the first (only) package. -/
theorem provenance_first_writer_wins_witness :
    link_entry_into_dir (fun _ => false) false pkgFoo "out" stWithFoo = stWithFoo
    ∧ alookup (outnameOf pkgFoo "out")
        (linkSequence (fun _ => false) false [(pkgFoo, "out"), (pkgFoo, "out")]
          emptyBuildState).tree_report = some pkgFoo :=
  ⟨provenance_first_writer_wins.1 (fun _ => false) false pkgFoo "out" stWithFoo (by decide),
   by
    have h := (provenance_first_writer_wins.2.2 (fun _ => false)
      [(pkgFoo, "out"), (pkgFoo, "out")] (outnameOf pkgFoo "out")).1
    rw [h]
    decide⟩

theorem effectiveSupportstatus_aset (n : String) (status : Option String)
    (m : List (String × Option String)) :
    effectiveSupportstatus (aset n status m) n = status := by
  unfold effectiveSupportstatus
  rw [alookup_aset_self]
  cases status <;> rfl

theorem companionStep_supportstatus (env : LinkEnv) (arch : String)
    (debugdir sourcedir : Option String) (add_slsa : Bool) (st : BuildState) (m : Bool)
    (rpm : Package) :
    (companionStep env arch debugdir sourcedir add_slsa (st, m) rpm).1.supportstatus
      = st.supportstatus := by
  unfold companionStep
  cases h1 : rpm.srcpkg with
  | none => simp
  | some src =>
    cases sourcedir <;> cases debugdir <;> (repeat' split) <;>
      simp [led_supportstatus]

theorem companionStep_missing (env : LinkEnv) (arch : String)
    (debugdir sourcedir : Option String) (add_slsa : Bool) (st : BuildState) (m : Bool)
    (rpm : Package) :
    (companionStep env arch debugdir sourcedir add_slsa (st, m) rpm).2
      = (m || srcLookupFails env.pool sourcedir rpm) := by
  unfold companionStep srcLookupFails
  cases h1 : rpm.srcpkg with
  | none => simp
  | some src =>
    cases sourcedir <;> cases debugdir <;> (repeat' split) <;>
      simp_all

theorem companionStep_warnings (env : LinkEnv) (arch : String)
    (debugdir sourcedir : Option String) (add_slsa : Bool) (st : BuildState) (m : Bool)
    (rpm : Package) :
    (companionStep env arch debugdir sourcedir add_slsa (st, m) rpm).1.warnings
      = st.warnings ++ companionWarnings env.pool sourcedir rpm := by
  unfold companionStep companionWarnings
  cases h1 : rpm.srcpkg with
  | none => simp
  | some src =>
    cases sourcedir <;> cases debugdir <;> (repeat' split) <;>
      simp_all [led_warnings]

theorem companionStep_fs_preserved (env : LinkEnv) (arch : String)
    (debugdir sourcedir : Option String) (add_slsa : Bool) (st : BuildState) (m : Bool)
    (rpm : Package) (k v : String) (h : alookup k st.fs = some v) :
    alookup k (companionStep env arch debugdir sourcedir add_slsa (st, m) rpm).1.fs
      = some v := by
  unfold companionStep
  cases h1 : rpm.srcpkg with
  | none => simpa using h
  | some src =>
    cases sourcedir <;> cases debugdir <;> (repeat' split) <;> dsimp only <;>
      repeat' (first | apply led_fs_preserved | exact h)

theorem companionStep_fs_isSome (env : LinkEnv) (arch : String)
    (debugdir sourcedir : Option String) (add_slsa : Bool) (st : BuildState) (m : Bool)
    (rpm : Package) (k : String) (h : (alookup k st.fs).isSome = true) :
    (alookup k (companionStep env arch debugdir sourcedir add_slsa (st, m) rpm).1.fs).isSome
      = true := by
  obtain ⟨v, hv⟩ := Option.isSome_iff_exists.mp h
  rw [companionStep_fs_preserved _ _ _ _ _ _ _ _ _ _ hv]
  rfl

theorem linkOneRpm_supportstatus (env : LinkEnv) (arch rpmdir : String)
    (debugdir sourcedir : Option String) (add_slsa : Bool) (sel : Selector)
    (st : BuildState) (m : Bool) (rpm : Package) :
    (linkOneRpm env arch rpmdir debugdir sourcedir add_slsa sel (st, m) rpm).1.supportstatus
      = aset rpm.name
          (match alookup rpm.name env.override with
           | some s => some s
           | none => sel.supportstatus) st.supportstatus := by
  unfold linkOneRpm
  dsimp only
  rw [companionStep_supportstatus]
  dsimp only
  rw [led_supportstatus]

theorem linkOneRpm_missing (env : LinkEnv) (arch rpmdir : String)
    (debugdir sourcedir : Option String) (add_slsa : Bool) (sel : Selector)
    (st : BuildState) (m : Bool) (rpm : Package) :
    (linkOneRpm env arch rpmdir debugdir sourcedir add_slsa sel (st, m) rpm).2
      = (m || srcLookupFails env.pool sourcedir rpm) := by
  unfold linkOneRpm
  dsimp only
  rw [companionStep_missing]

theorem linkOneRpm_warnings (env : LinkEnv) (arch rpmdir : String)
    (debugdir sourcedir : Option String) (add_slsa : Bool) (sel : Selector)
    (st : BuildState) (m : Bool) (rpm : Package) :
    (linkOneRpm env arch rpmdir debugdir sourcedir add_slsa sel (st, m) rpm).1.warnings
      = st.warnings ++ companionWarnings env.pool sourcedir rpm := by
  unfold linkOneRpm
  dsimp only
  rw [companionStep_warnings]
  dsimp only
  rw [led_warnings]

theorem linkOneRpm_fs_preserved (env : LinkEnv) (arch rpmdir : String)
    (debugdir sourcedir : Option String) (add_slsa : Bool) (sel : Selector)
    (st : BuildState) (m : Bool) (rpm : Package) (k v : String)
    (h : alookup k st.fs = some v) :
    alookup k (linkOneRpm env arch rpmdir debugdir sourcedir add_slsa sel (st, m) rpm).1.fs
      = some v := by
  unfold linkOneRpm
  dsimp only
  apply companionStep_fs_preserved
  dsimp only
  exact led_fs_preserved _ _ _ _ _ _ _ h

theorem linkOneRpm_fs_outname (env : LinkEnv) (arch rpmdir : String)
    (debugdir sourcedir : Option String) (add_slsa : Bool) (sel : Selector)
    (st : BuildState) (m : Bool) (rpm : Package) :
    (alookup (outnameOf rpm rpmdir)
        (linkOneRpm env arch rpmdir debugdir sourcedir add_slsa sel (st, m) rpm).1.fs).isSome
      = true := by
  unfold linkOneRpm
  dsimp only
  apply companionStep_fs_isSome
  dsimp only
  exact led_fs_outname _ _ _ _ _

/-- C7: for every resolved package, the recorded support status gives
precedence to the loaded per-package override table over the status on
the Selector's owning set; when the override has no entry and the
Selector carries no set-level status, the effective recorded status is
`none`. -/
theorem supportstatus_override_precedence (env : LinkEnv) (arch rpmdir : String)
    (debugdir sourcedir : Option String) (add_slsa : Bool) (sel : Selector)
    (st : BuildState) (m : Bool) (rpm : Package) :
    effectiveSupportstatus
        (linkOneRpm env arch rpmdir debugdir sourcedir add_slsa sel (st, m) rpm).1.supportstatus
        rpm.name
      = match alookup rpm.name env.override with
        | some s => some s
        | none => sel.supportstatus := by
  rw [linkOneRpm_supportstatus, effectiveSupportstatus_aset]

/-- Witness for C7: with an empty override table and a Selector without a
set-level status, no status is recorded for the package. -/
theorem supportstatus_override_precedence_witness :
    effectiveSupportstatus
        (linkOneRpm env0 "x86_64" "out" none none false selFoo
          (emptyBuildState, false) pkgFoo).1.supportstatus pkgFoo.name
      = none :=
  supportstatus_override_precedence env0 "x86_64" "out" none none false selFoo
    emptyBuildState false pkgFoo

/-- C4: for a resolved binary package carrying a source reference, the
missing-package flag after processing it is set exactly when a source
sub-tree is requested and the exact-EVR source lookup fails (and then a
"source rpm not found" warning is printed); the best-effort debuginfo and
debugsource lookups never set the flag and never warn. -/
theorem companion_resolution_best_effort (env : LinkEnv) (arch rpmdir : String)
    (debugdir sourcedir : Option String) (add_slsa : Bool) (sel : Selector)
    (st : BuildState) (m : Bool) (rpm : Package) (src : SrcRef)
    (h : rpm.srcpkg = some src) :
    ((linkOneRpm env arch rpmdir debugdir sourcedir add_slsa sel (st, m) rpm).2
        = (m || (sourcedir.isSome
            && (env.pool.lookupRpm src.arch src.name (some "=") none (some src.version)
                  (some src.release)).isNone)))
    ∧ ((linkOneRpm env arch rpmdir debugdir sourcedir add_slsa sel (st, m) rpm).1.warnings
        = st.warnings
          ++ (if sourcedir.isSome
                && (env.pool.lookupRpm src.arch src.name (some "=") none (some src.version)
                      (some src.release)).isNone
              then [Warning.missingSourceRpm src rpm] else [])) := by
  rw [linkOneRpm_missing, linkOneRpm_warnings]
  unfold srcLookupFails companionWarnings
  rw [h]
  cases sourcedir with
  | none => simp
  | some sdir =>
    cases h2 : env.pool.lookupRpm src.arch src.name (some "=") none (some src.version)
        (some src.release) <;>
      simp [h2]

/-- Witness for C4: `pkgFooWithSrc` with a requested source sub-tree
whose source package is absent from `pool0` sets the missing flag and
warns; without a source sub-tree it does neither. -/
theorem companion_resolution_best_effort_witness :
    ((linkOneRpm env0 "x86_64" "out" none (some "out-Source") false selFoo
        (emptyBuildState, false) pkgFooWithSrc).2
      = (false || ((some "out-Source" : Option String).isSome
          && (env0.pool.lookupRpm srcFoo.arch srcFoo.name (some "=") none (some srcFoo.version)
                (some srcFoo.release)).isNone)))
    ∧ ((linkOneRpm env0 "x86_64" "out" none (some "out-Source") false selFoo
        (emptyBuildState, false) pkgFooWithSrc).1.warnings
      = emptyBuildState.warnings
        ++ (if (some "out-Source" : Option String).isSome
              && (env0.pool.lookupRpm srcFoo.arch srcFoo.name (some "=") none (some srcFoo.version)
                    (some srcFoo.release)).isNone
            then [Warning.missingSourceRpm srcFoo pkgFooWithSrc] else [])) :=
  companion_resolution_best_effort env0 "x86_64" "out" none (some "out-Source") false selFoo
    emptyBuildState false pkgFooWithSrc srcFoo rfl

theorem companionWarnings_filter (pool : Pool) (sourcedir : Option String) (rpm : Package) :
    (companionWarnings pool sourcedir rpm).filter isMissingPkgWarning = [] := by
  unfold companionWarnings
  cases h1 : rpm.srcpkg with
  | none => simp [isMissingPkgWarning]
  | some src =>
    cases sourcedir with
    | none => rfl
    | some sdir => split <;> simp [isMissingPkgWarning]

theorem foldRpms_missing (env : LinkEnv) (arch rpmdir : String)
    (debugdir sourcedir : Option String) (add_slsa : Bool) (sel : Selector)
    (rpms : List Package) :
    ∀ (st : BuildState) (m : Bool),
      (rpms.foldl (linkOneRpm env arch rpmdir debugdir sourcedir add_slsa sel) (st, m)).2
        = (m || rpms.any (srcLookupFails env.pool sourcedir)) := by
  induction rpms with
  | nil => intro st m; simp
  | cons r rest ih =>
    intro st m
    rw [List.foldl_cons]
    rcases hr : linkOneRpm env arch rpmdir debugdir sourcedir add_slsa sel (st, m) r
      with ⟨st1, m1⟩
    rw [ih st1 m1]
    have hm : m1 = (m || srcLookupFails env.pool sourcedir r) := by
      have h2 := linkOneRpm_missing env arch rpmdir debugdir sourcedir add_slsa sel st m r
      rw [hr] at h2
      exact h2
    rw [hm]
    simp [Bool.or_assoc]

theorem foldRpms_warnings_filter (env : LinkEnv) (arch rpmdir : String)
    (debugdir sourcedir : Option String) (add_slsa : Bool) (sel : Selector)
    (rpms : List Package) :
    ∀ (st : BuildState) (m : Bool),
      ((rpms.foldl (linkOneRpm env arch rpmdir debugdir sourcedir add_slsa sel)
          (st, m)).1.warnings).filter isMissingPkgWarning
        = st.warnings.filter isMissingPkgWarning := by
  induction rpms with
  | nil => intro st m; rfl
  | cons r rest ih =>
    intro st m
    rw [List.foldl_cons]
    rcases hr : linkOneRpm env arch rpmdir debugdir sourcedir add_slsa sel (st, m) r
      with ⟨st1, m1⟩
    rw [ih st1 m1]
    have hw : st1.warnings = st.warnings ++ companionWarnings env.pool sourcedir r := by
      have h2 := linkOneRpm_warnings env arch rpmdir debugdir sourcedir add_slsa sel st m r
      rw [hr] at h2
      exact h2
    rw [hw, List.filter_append, companionWarnings_filter, List.append_nil]

theorem foldRpms_fs_preserved (env : LinkEnv) (arch rpmdir : String)
    (debugdir sourcedir : Option String) (add_slsa : Bool) (sel : Selector)
    (rpms : List Package) (k v : String) :
    ∀ (st : BuildState) (m : Bool), alookup k st.fs = some v →
      alookup k ((rpms.foldl (linkOneRpm env arch rpmdir debugdir sourcedir add_slsa sel)
          (st, m)).1.fs) = some v := by
  induction rpms with
  | nil => intro st m h; exact h
  | cons r rest ih =>
    intro st m h
    rw [List.foldl_cons]
    rcases hr : linkOneRpm env arch rpmdir debugdir sourcedir add_slsa sel (st, m) r
      with ⟨st1, m1⟩
    refine ih st1 m1 ?_
    have h2 := linkOneRpm_fs_preserved env arch rpmdir debugdir sourcedir add_slsa sel st m r
      k v h
    rw [hr] at h2
    exact h2

theorem foldRpms_fs_isSome (env : LinkEnv) (arch rpmdir : String)
    (debugdir sourcedir : Option String) (add_slsa : Bool) (sel : Selector)
    (rpms : List Package) (k : String) :
    ∀ (st : BuildState) (m : Bool), (alookup k st.fs).isSome = true →
      (alookup k ((rpms.foldl (linkOneRpm env arch rpmdir debugdir sourcedir add_slsa sel)
          (st, m)).1.fs)).isSome = true := by
  intro st m h
  obtain ⟨v, hv⟩ := Option.isSome_iff_exists.mp h
  rw [foldRpms_fs_preserved _ _ _ _ _ _ _ _ _ _ st m hv]
  rfl

theorem foldRpms_fs_outname (env : LinkEnv) (arch rpmdir : String)
    (debugdir sourcedir : Option String) (add_slsa : Bool) (sel : Selector)
    (rpms : List Package) (p : Package) :
    ∀ (st : BuildState) (m : Bool), p ∈ rpms →
      (alookup (outnameOf p rpmdir)
        ((rpms.foldl (linkOneRpm env arch rpmdir debugdir sourcedir add_slsa sel)
          (st, m)).1.fs)).isSome = true := by
  induction rpms with
  | nil => intro st m hp; exact absurd hp (List.not_mem_nil p)
  | cons r rest ih =>
    intro st m hp
    rw [List.foldl_cons]
    rcases hr : linkOneRpm env arch rpmdir debugdir sourcedir add_slsa sel (st, m) r
      with ⟨st1, m1⟩
    rcases List.mem_cons.mp hp with rfl | hp2
    · have h2 := linkOneRpm_fs_outname env arch rpmdir debugdir sourcedir add_slsa sel st m p
      rw [hr] at h2
      exact foldRpms_fs_isSome env arch rpmdir debugdir sourcedir add_slsa sel rest
        (outnameOf p rpmdir) st1 m1 h2
    · exact ih st1 m1 hp2

theorem linkSelector_missing (env : LinkEnv) (arch rpmdir : String)
    (debugdir sourcedir : Option String) (add_slsa single : Bool) (st : BuildState) (m : Bool)
    (sel : Selector) :
    (linkSelector env arch rpmdir debugdir sourcedir add_slsa single (st, m) sel).2
      = (m || selMissing env.pool single arch sourcedir sel) := by
  simp only [linkSelector, selMissing]
  by_cases he : (rpmsOf env.pool single arch sel).isEmpty
  · simp [he]
  · simp only [he, Bool.false_eq_true, if_false]
    rw [foldRpms_missing]
    simp [he]

theorem linkSelector_warnings_filter (env : LinkEnv) (arch rpmdir : String)
    (debugdir sourcedir : Option String) (add_slsa single : Bool) (st : BuildState) (m : Bool)
    (sel : Selector) :
    ((linkSelector env arch rpmdir debugdir sourcedir add_slsa single
        (st, m) sel).1.warnings).filter isMissingPkgWarning
      = st.warnings.filter isMissingPkgWarning
        ++ (if (rpmsOf env.pool single arch sel).isEmpty
            then [Warning.missingPackage sel arch] else []) := by
  simp only [linkSelector]
  by_cases he : (rpmsOf env.pool single arch sel).isEmpty
  · simp [he, List.filter_append, isMissingPkgWarning]
  · simp only [he, Bool.false_eq_true, if_false]
    rw [foldRpms_warnings_filter]
    simp [he]

theorem linkSelector_fs_preserved (env : LinkEnv) (arch rpmdir : String)
    (debugdir sourcedir : Option String) (add_slsa single : Bool) (st : BuildState) (m : Bool)
    (sel : Selector) (k v : String) (h : alookup k st.fs = some v) :
    alookup k (linkSelector env arch rpmdir debugdir sourcedir add_slsa single
        (st, m) sel).1.fs = some v := by
  simp only [linkSelector]
  by_cases he : (rpmsOf env.pool single arch sel).isEmpty
  · simpa [he] using h
  · simp only [he, Bool.false_eq_true, if_false]
    exact foldRpms_fs_preserved env arch rpmdir debugdir sourcedir add_slsa sel _ k v st m h

theorem linkSelector_fs_linked (env : LinkEnv) (arch rpmdir : String)
    (debugdir sourcedir : Option String) (add_slsa single : Bool) (st : BuildState) (m : Bool)
    (sel : Selector) (p : Package) (hp : p ∈ rpmsOf env.pool single arch sel) :
    (alookup (outnameOf p rpmdir)
        (linkSelector env arch rpmdir debugdir sourcedir add_slsa single
          (st, m) sel).1.fs).isSome = true := by
  have hne : ¬ (rpmsOf env.pool single arch sel).isEmpty = true := by
    intro hE
    rw [List.isEmpty_iff] at hE
    rw [hE] at hp
    exact absurd hp (List.not_mem_nil p)
  simp only [linkSelector, hne, Bool.false_eq_true, if_false]
  exact foldRpms_fs_outname env arch rpmdir debugdir sourcedir add_slsa sel _ p st m hp

theorem foldSel_missing (env : LinkEnv) (arch rpmdir : String)
    (debugdir sourcedir : Option String) (add_slsa single : Bool) (sels : List Selector) :
    ∀ (st : BuildState) (m : Bool),
      (sels.foldl (linkSelector env arch rpmdir debugdir sourcedir add_slsa single) (st, m)).2
        = (m || sels.any (selMissing env.pool single arch sourcedir)) := by
  induction sels with
  | nil => intro st m; simp
  | cons sel rest ih =>
    intro st m
    rw [List.foldl_cons]
    rcases hr : linkSelector env arch rpmdir debugdir sourcedir add_slsa single (st, m) sel
      with ⟨st1, m1⟩
    rw [ih st1 m1]
    have hm : m1 = (m || selMissing env.pool single arch sourcedir sel) := by
      have h2 := linkSelector_missing env arch rpmdir debugdir sourcedir add_slsa single st m sel
      rw [hr] at h2
      exact h2
    rw [hm]
    simp [Bool.or_assoc]

theorem foldSel_warnings_filter (env : LinkEnv) (arch rpmdir : String)
    (debugdir sourcedir : Option String) (add_slsa single : Bool) (sels : List Selector) :
    ∀ (st : BuildState) (m : Bool),
      ((sels.foldl (linkSelector env arch rpmdir debugdir sourcedir add_slsa single)
          (st, m)).1.warnings).filter isMissingPkgWarning
        = st.warnings.filter isMissingPkgWarning
          ++ (sels.filter (fun sel => (rpmsOf env.pool single arch sel).isEmpty)).map
              (fun sel => Warning.missingPackage sel arch) := by
  induction sels with
  | nil => intro st m; simp
  | cons sel rest ih =>
    intro st m
    rw [List.foldl_cons]
    rcases hr : linkSelector env arch rpmdir debugdir sourcedir add_slsa single (st, m) sel
      with ⟨st1, m1⟩
    rw [ih st1 m1]
    have hw := linkSelector_warnings_filter env arch rpmdir debugdir sourcedir add_slsa single
      st m sel
    rw [hr] at hw
    rw [hw]
    by_cases hc : (rpmsOf env.pool single arch sel).isEmpty
    · simp [hc, List.filter_cons, List.append_assoc]
    · simp [hc, List.filter_cons]

theorem foldSel_fs_preserved (env : LinkEnv) (arch rpmdir : String)
    (debugdir sourcedir : Option String) (add_slsa single : Bool) (sels : List Selector)
    (k v : String) :
    ∀ (st : BuildState) (m : Bool), alookup k st.fs = some v →
      alookup k ((sels.foldl (linkSelector env arch rpmdir debugdir sourcedir add_slsa single)
          (st, m)).1.fs) = some v := by
  induction sels with
  | nil => intro st m h; exact h
  | cons sel rest ih =>
    intro st m h
    rw [List.foldl_cons]
    rcases hr : linkSelector env arch rpmdir debugdir sourcedir add_slsa single (st, m) sel
      with ⟨st1, m1⟩
    refine ih st1 m1 ?_
    have h2 := linkSelector_fs_preserved env arch rpmdir debugdir sourcedir add_slsa single
      st m sel k v h
    rw [hr] at h2
    exact h2

theorem foldSel_fs_isSome (env : LinkEnv) (arch rpmdir : String)
    (debugdir sourcedir : Option String) (add_slsa single : Bool) (sels : List Selector)
    (k : String) :
    ∀ (st : BuildState) (m : Bool), (alookup k st.fs).isSome = true →
      (alookup k ((sels.foldl (linkSelector env arch rpmdir debugdir sourcedir add_slsa single)
          (st, m)).1.fs)).isSome = true := by
  intro st m h
  obtain ⟨v, hv⟩ := Option.isSome_iff_exists.mp h
  rw [foldSel_fs_preserved _ _ _ _ _ _ _ _ _ _ st m hv]
  rfl

theorem foldSel_fs_linked (env : LinkEnv) (arch rpmdir : String)
    (debugdir sourcedir : Option String) (add_slsa single : Bool) (sels : List Selector)
    (sel : Selector) (p : Package) :
    ∀ (st : BuildState) (m : Bool), sel ∈ sels → p ∈ rpmsOf env.pool single arch sel →
      (alookup (outnameOf p rpmdir)
        ((sels.foldl (linkSelector env arch rpmdir debugdir sourcedir add_slsa single)
          (st, m)).1.fs)).isSome = true := by
  induction sels with
  | nil => intro st m hsel _; exact absurd hsel (List.not_mem_nil sel)
  | cons s rest ih =>
    intro st m hsel hp
    rw [List.foldl_cons]
    rcases hr : linkSelector env arch rpmdir debugdir sourcedir add_slsa single (st, m) s
      with ⟨st1, m1⟩
    rcases List.mem_cons.mp hsel with rfl | hsel2
    · have h2 := linkSelector_fs_linked env arch rpmdir debugdir sourcedir add_slsa single
        st m sel p hp
      rw [hr] at h2
      exact foldSel_fs_isSome env arch rpmdir debugdir sourcedir add_slsa single rest
        (outnameOf p rpmdir) st1 m1 h2
    · exact ih st1 m1 hsel2 hp

/-- C1: resolution of a main package set processes every Selector, each
unresolved Selector contributes exactly one "not found" warning naming
the selector and the architecture, the run reaches the post-loop abort
decision with all warnings accumulated, and the abort message is present
iff some Selector (or a required source companion of a resolved package)
was missing and the `ignore_missing_packages` build option is absent. -/
theorem resolution_aggregates_missing (env : LinkEnv) (yml : Yml) (arch : String)
    (flavor : Option String) (rpmdir : String) (debugdir sourcedir : Option String)
    (st : BuildState) (ps : PkgSet)
    (h : create_package_set yml arch flavor "main" = .ok ps) :
    ∃ out : BuildState × Option String,
      link_rpms_to_tree env yml arch flavor rpmdir debugdir sourcedir st = .ok out
      ∧ (out.2.isSome
          ↔ (ps.elements.any (selMissing env.pool (singlemode yml) arch sourcedir) = true
             ∧ yml.build_options.contains "ignore_missing_packages" = false))
      ∧ out.1.warnings.filter isMissingPkgWarning
          = st.warnings.filter isMissingPkgWarning
            ++ (ps.elements.filter
                  (fun sel => (rpmsOf env.pool (singlemode yml) arch sel).isEmpty)).map
                (fun sel => Warning.missingPackage sel arch) := by
  simp only [link_rpms_to_tree, h]
  rcases hr : ps.elements.foldl
      (linkSelector env arch rpmdir debugdir sourcedir
        (yml.build_options.contains "add_slsa_provenance") (singlemode yml)) (st, false)
    with ⟨st1, m1⟩
  have hm : m1 = ps.elements.any (selMissing env.pool (singlemode yml) arch sourcedir) := by
    have h2 := foldSel_missing env arch rpmdir debugdir sourcedir
      (yml.build_options.contains "add_slsa_provenance") (singlemode yml) ps.elements st false
    rw [hr] at h2
    simpa using h2
  have hw : st1.warnings.filter isMissingPkgWarning
      = st.warnings.filter isMissingPkgWarning
        ++ (ps.elements.filter
              (fun sel => (rpmsOf env.pool (singlemode yml) arch sel).isEmpty)).map
            (fun sel => Warning.missingPackage sel arch) := by
    have h3 := foldSel_warnings_filter env arch rpmdir debugdir sourcedir
      (yml.build_options.contains "add_slsa_provenance") (singlemode yml) ps.elements st false
    rw [hr] at h3
    exact h3
  by_cases hc : (m1 && !(yml.build_options.contains "ignore_missing_packages")) = true
  · rw [if_pos hc]
    have hc2 : m1 = true ∧ yml.build_options.contains "ignore_missing_packages" = false := by
      simpa using hc
    refine ⟨(st1, some "Abort due to missing packages"), rfl, ?_, hw⟩
    constructor
    · intro _
      exact ⟨hm ▸ hc2.1, hc2.2⟩
    · intro _
      simp
  · rw [if_neg hc]
    refine ⟨(st1, none), rfl, ?_, hw⟩
    constructor
    · intro habs
      simp at habs
    · rintro ⟨h4, h5⟩
      exfalso
      apply hc
      rw [hm, h4, h5]
      rfl

/-- Witness for C1: over `pool0`, the main set of `ymlMain` has `foo`
resolvable and `bar` missing; the run warns for `bar` and aborts. -/
theorem resolution_aggregates_missing_witness :
    ∃ out : BuildState × Option String,
      link_rpms_to_tree env0 ymlMain "x86_64" none "out" none none emptyBuildState = .ok out
      ∧ (out.2.isSome
          ↔ (psMain.elements.any (selMissing env0.pool (singlemode ymlMain) "x86_64" none) = true
             ∧ ymlMain.build_options.contains "ignore_missing_packages" = false))
      ∧ out.1.warnings.filter isMissingPkgWarning
          = emptyBuildState.warnings.filter isMissingPkgWarning
            ++ (psMain.elements.filter
                  (fun sel => (rpmsOf env0.pool (singlemode ymlMain) "x86_64" sel).isEmpty)).map
                (fun sel => Warning.missingPackage sel "x86_64") :=
  resolution_aggregates_missing env0 ymlMain "x86_64" none "out" none none emptyBuildState
    psMain (by rfl)

/-- C2: the resolution mode is a build-wide switch — in single mode each
Selector resolves to at most one package, `lookup_rpm`'s best match; in
multi mode it resolves to every package of `lookup_all_rpms`; and every
package so returned for a Selector of the main set ends up linked (its
output path exists in the output tree when the run returns). -/
theorem resolution_mode_build_wide (env : LinkEnv) (yml : Yml) (arch : String)
    (flavor : Option String) (rpmdir : String) (debugdir sourcedir : Option String)
    (st : BuildState) (ps : PkgSet)
    (h : create_package_set yml arch flavor "main" = .ok ps) :
    (∀ sel : Selector,
        rpmsOf env.pool true arch sel
            = (env.pool.lookupRpm arch sel.name sel.op sel.epoch sel.version sel.release).toList
        ∧ (rpmsOf env.pool true arch sel).length ≤ 1)
    ∧ (∀ sel : Selector,
        rpmsOf env.pool false arch sel
          = env.pool.lookupAllRpms arch sel.name sel.op sel.epoch sel.version sel.release)
    ∧ (∀ out, link_rpms_to_tree env yml arch flavor rpmdir debugdir sourcedir st = .ok out →
        ∀ sel ∈ ps.elements, ∀ p ∈ rpmsOf env.pool (singlemode yml) arch sel,
          (alookup (outnameOf p rpmdir) out.1.fs).isSome = true) := by
  refine ⟨?_, fun sel => rfl, ?_⟩
  · intro sel
    constructor
    · simp only [rpmsOf, if_true]
      cases h2 : env.pool.lookupRpm arch sel.name sel.op sel.epoch sel.version sel.release <;>
        simp [h2, Option.toList]
    · simp only [rpmsOf, if_true]
      cases h2 : env.pool.lookupRpm arch sel.name sel.op sel.epoch sel.version sel.release <;>
        simp [h2]
  · intro out hout sel hsel p hp
    simp only [link_rpms_to_tree, h] at hout
    rcases hr : ps.elements.foldl
        (linkSelector env arch rpmdir debugdir sourcedir
          (yml.build_options.contains "add_slsa_provenance") (singlemode yml)) (st, false)
      with ⟨st1, m1⟩
    rw [hr] at hout
    have hfs : (alookup (outnameOf p rpmdir) st1.fs).isSome = true := by
      have h5 := foldSel_fs_linked env arch rpmdir debugdir sourcedir
        (yml.build_options.contains "add_slsa_provenance") (singlemode yml) ps.elements sel p
        st false hsel hp
      rw [hr] at h5
      exact h5
    split at hout <;>
      (rw [Except.ok.injEq] at hout
       rw [← hout]
       exact hfs)

/-- Witness for C2: over `pool0` and `ymlMain`, the resolved `foo` is
linked under `out`. -/
theorem resolution_mode_build_wide_witness :
    (∀ sel : Selector,
        rpmsOf env0.pool true "x86_64" sel
            = (env0.pool.lookupRpm "x86_64" sel.name sel.op sel.epoch sel.version
                sel.release).toList
        ∧ (rpmsOf env0.pool true "x86_64" sel).length ≤ 1)
    ∧ (∀ sel : Selector,
        rpmsOf env0.pool false "x86_64" sel
          = env0.pool.lookupAllRpms "x86_64" sel.name sel.op sel.epoch sel.version sel.release)
    ∧ (∀ out, link_rpms_to_tree env0 ymlMain "x86_64" none "out" none none emptyBuildState
          = .ok out →
        ∀ sel ∈ psMain.elements, ∀ p ∈ rpmsOf env0.pool (singlemode ymlMain) "x86_64" sel,
          (alookup (outnameOf p "out") out.1.fs).isSome = true) :=
  resolution_mode_build_wide env0 ymlMain "x86_64" none "out" none none emptyBuildState
    psMain (by rfl)
